import Mathlib

/-!
Shallow embedding of the TitanAI session orchestrator core
(`src/App.tsx` together with the data model of `src/types.ts`).

The embedding models:
* the `WorkoutState` record and the `Exercise` value objects (`types.ts`);
* `handleTrainerAction` (App.tsx lines 214-232): the workout state machine
  transition driven by tool-call actions, together with its side effects
  (`setTimeout(stopWorkout, 2000)` and `startRestTimer`), returned
  explicitly as an effect list; an out-of-range exercise lookup followed by
  a dereference is modelled as `none` (the JavaScript code would throw a
  `TypeError` on `currentEx.targetSets` there);
* `stopWorkout` (lines 55-73): session teardown over an orchestrator state
  that tracks the remote-session handle, the number of `close()` calls,
  the rest-timer interval and the history list;
* `handleDifficultyChange` (lines 75-93), parameterised by the external
  pure adjustment function `adjustExerciseByDifficulty` (the
  `services/workoutService` module is an external collaborator);
* the tool-call dispatch loop of `onmessage` (lines 183-197);
* the interruption handler of `onmessage` (lines 199-204) and the playback
  bookkeeping (`sourcesRef`, `nextStartTimeRef`, `isModelSpeaking`);
* `startRestTimer` (lines 234-245): the countdown tick, the bounded run of
  the interval until it clears itself, and the cancel-before-start
  discipline on `timerIntervalRef`.

JavaScript numbers that can go negative (the timer value, the playback
clock) are modelled as `Int`; counters that the code only ever sets to
non-negative values are `Nat`.
-/

/-- The difficulty enum of `types.ts` (values "Easy", "Moderate",
"Challenging"); kept abstract as its three constructors. -/
inductive Difficulty where
  | easy
  | medium
  | hard
  deriving Repr, DecidableEq

/-- The `Exercise` interface of `types.ts`. -/
structure Exercise where
  id : String
  name : String
  muscleGroup : String
  description : String
  targetReps : Nat
  targetSets : Nat
  restSeconds : Nat
  difficulty : Option Difficulty := none
  deriving Repr, DecidableEq

/-- The `WorkoutState` interface of `types.ts`.  `timer` is `Int` because
the interval callback in `startRestTimer` can drive the JavaScript number
below zero (`remaining -= 1` with no lower bound). -/
structure WorkoutState where
  isActive : Bool
  currentExerciseIndex : Nat
  currentSet : Nat
  timer : Int
  isResting : Bool
  deriving Repr, DecidableEq

/-- Side effects requested by `handleTrainerAction` besides the state
update: `scheduleStop` models `setTimeout(stopWorkout, 2000)` and
`startRest s` models the call `startRestTimer(currentEx.restSeconds)`. -/
inductive TrainerEffect where
  | scheduleStop
  | startRest (seconds : Nat)
  deriving Repr, DecidableEq

/-- `handleTrainerAction` (App.tsx lines 214-232): the updater passed to
`setWorkoutState`, together with the side effects it performs.  The code
reads `activeExercises[prev.currentExerciseIndex]` and dereferences it
only inside the `finish_set` branch; an out-of-range lookup there is a
JavaScript `TypeError`, modelled as `none`. -/
def handleTrainerAction (activeExercises : List Exercise) (action : String)
    (prev : WorkoutState) : Option (WorkoutState × List TrainerEffect) :=
  if action = "finish_set" then
    match activeExercises.get? prev.currentExerciseIndex with
    | none => none
    | some currentEx =>
      -- isLastSet = prev.currentSet >= currentEx.targetSets
      if currentEx.targetSets ≤ prev.currentSet then
        -- isLastEx = prev.currentExerciseIndex >= activeExercises.length - 1
        if activeExercises.length - 1 ≤ prev.currentExerciseIndex then
          some ({ prev with isActive := false }, [TrainerEffect.scheduleStop])
        else
          some ({ prev with
                    currentExerciseIndex := prev.currentExerciseIndex + 1,
                    currentSet := 1, timer := 0, isResting := false }, [])
      else
        some ({ prev with
                  currentSet := prev.currentSet + 1,
                  timer := (currentEx.restSeconds : Int), isResting := true },
              [TrainerEffect.startRest currentEx.restSeconds])
  else
    some (prev, [])

/-- One set entry of a `WorkoutSession` history record (`types.ts`);
`weight` and `rpe` are optional and never produced by the live path. -/
structure SetRecord where
  reps : Nat
  weight : Option Nat := none
  rpe : Option Nat := none
  deriving Repr, DecidableEq

/-- One per-exercise entry of a `WorkoutSession` history record. -/
structure ExerciseRecord where
  exerciseId : String
  sets : List SetRecord
  deriving Repr, DecidableEq

/-- A `WorkoutSession` history record (`types.ts`).  The `id` and `date`
fields of the source are taken from the wall clock (`Date.now()`,
`new Date().toISOString()`); they are environment inputs irrelevant to the
claims and are omitted from the embedding. -/
structure WorkoutSession where
  exercises : List ExerciseRecord
  deriving Repr, DecidableEq

/-- The history record synthesized by `stopWorkout` (lines 64-71):
`activeExercises.map(ex => ({ exerciseId: ex.id, sets:
Array(ex.targetSets).fill({ reps: ex.targetReps }) }))`. -/
def mkSessionRecord (activeExercises : List Exercise) : WorkoutSession :=
  { exercises := activeExercises.map fun ex =>
      { exerciseId := ex.id
        sets := List.replicate ex.targetSets { reps := ex.targetReps } } }

/-- The orchestrator-owned mutable state of `App.tsx` relevant to the
claims: the `isWorkoutActive` flag, the workout state machine state, the
active exercise list, the history list, the remote session handle
(`sessionRef`: `sessionOpen` says whether it is non-null, `closeCount`
counts the `close()` calls actually issued on the remote handle), and
whether a rest-timer interval is currently scheduled
(`timerIntervalRef`). -/
structure OrchState where
  isWorkoutActive : Bool
  workoutState : WorkoutState
  activeExercises : List Exercise
  history : List WorkoutSession
  sessionOpen : Bool
  closeCount : Nat
  timerScheduled : Bool
  deriving Repr, DecidableEq

/-- `stopWorkout` (App.tsx lines 55-73): mark inactive, close the remote
handle only when it is still set (and null it), clear the interval, and
prepend a synthesized history record.  Note that the history prepend is
unconditional: it happens on every invocation. -/
def stopWorkout (s : OrchState) : OrchState :=
  let s1 := { s with
                isWorkoutActive := false,
                workoutState := { s.workoutState with isActive := false } }
  let s2 := if s1.sessionOpen then
              { s1 with sessionOpen := false, closeCount := s1.closeCount + 1 }
            else s1
  let s3 := { s2 with timerScheduled := false }
  { s3 with history := mkSessionRecord s3.activeExercises :: s3.history }

/-- The informational realtime-input message sent by
`handleDifficultyChange` (lines 86-92), reduced to its payload: the new
difficulty value and the adjusted targets. -/
structure DifficultyInfo where
  value : Option String
  reps : Nat
  sets : Nat
  deriving Repr, DecidableEq

/-- The `setActiveExercises` updater of `handleDifficultyChange`
(lines 76-83): copy the list and replace the entry at
`currentExerciseIndex` by its adjusted version when that entry exists
(`if (updated[currentIdx])`), otherwise leave the list alone.  `adjust`
is the external `adjustExerciseByDifficulty` collaborator, taking the raw
`value` string of the tool call (the source casts it with
`value as Difficulty` without validation). -/
def updateExercises (adjust : Exercise → Option String → Exercise)
    (value : Option String) (currentIdx : Nat) (prev : List Exercise) :
    List Exercise :=
  match prev.get? currentIdx with
  | some e => prev.set currentIdx (adjust e value)
  | none => prev

/-- `handleDifficultyChange` (App.tsx lines 75-93): update the exercise
list at the current index, and when the remote session handle is set,
send the informational message describing the adjusted targets (the
source recomputes `adjustExerciseByDifficulty` on the entry it reads from
`activeExercises`; with an out-of-range index that read yields no
exercise and no message payload is produced here). -/
def handleDifficultyChange (adjust : Exercise → Option String → Exercise)
    (value : Option String) (s : OrchState) :
    OrchState × Option DifficultyInfo :=
  let currentIdx := s.workoutState.currentExerciseIndex
  let exs := updateExercises adjust value currentIdx s.activeExercises
  let info :=
    if s.sessionOpen then
      (s.activeExercises.get? currentIdx).map fun e =>
        let e2 := adjust e value
        { value := value, reps := e2.targetReps, sets := e2.targetSets }
    else none
  ({ s with activeExercises := exs }, info)

/-- One entry of `msg.toolCall.functionCalls`: the call id, the declared
function name, and the destructured `action`/`value` arguments. -/
structure FunctionCall where
  id : String
  name : String
  action : String
  value : Option String
  deriving Repr, DecidableEq

/-- A tool response sent via `sendToolResponse` (lines 192-194),
correlated by the call id. -/
structure ToolResponse where
  id : String
  name : String
  result : String
  deriving Repr, DecidableEq

/-- The body of the `for (const fc of msg.toolCall.functionCalls)` loop
(App.tsx lines 184-196) for a single function call: only calls named
`updateWorkoutState` are handled; `set_difficulty` routes to
`handleDifficultyChange`, every other action routes to
`handleTrainerAction`, and a response `{ result: "ok" }` is sent for the
handled call.  A call with any other name falls through the `if` with no
state change and no response.  (A faulting `handleTrainerAction` updater
runs in React's render phase, after the loop has already sent the
response; the state is left as it was.) -/
def processFunctionCall (adjust : Exercise → Option String → Exercise)
    (s : OrchState) (fc : FunctionCall) : OrchState × List ToolResponse :=
  if fc.name = "updateWorkoutState" then
    let s2 :=
      if fc.action = "set_difficulty" then
        (handleDifficultyChange adjust fc.value s).1
      else
        match handleTrainerAction s.activeExercises fc.action s.workoutState with
        | some (ws, _) => { s with workoutState := ws }
        | none => s
    (s2, [{ id := fc.id, name := fc.name, result := "ok" }])
  else
    (s, [])

/-- The whole tool-call dispatch loop of `onmessage` (lines 183-197):
process the function calls in order, collecting the responses sent. -/
def processToolCalls (adjust : Exercise → Option String → Exercise)
    (s : OrchState) : List FunctionCall → OrchState × List ToolResponse
  | [] => (s, [])
  | fc :: rest =>
    let p1 := processFunctionCall adjust s fc
    let p2 := processToolCalls adjust p1.1 rest
    (p2.1, p1.2 ++ p2.2)

/-- The playback bookkeeping of `App.tsx`: the set of scheduled-but-not-
finished buffer sources (`sourcesRef`, identified here by ids), the
schedule clock (`nextStartTimeRef`, an audio-clock time; `Int` suffices
for the claims since the interruption handler resets it to the constant
0), and the `isModelSpeaking` flag. -/
structure PlaybackState where
  sources : List Nat
  nextStartTime : Int
  isModelSpeaking : Bool
  deriving Repr, DecidableEq

/-- The audio-scheduling branch of `onmessage` (lines 166-181) for one
decoded segment: bump `nextStartTime` to at least the current audio-clock
time, start the source at `nextStartTime`, advance the clock by the
segment duration and track the source. -/
def scheduleSegment (now duration : Int) (srcId : Nat) (p : PlaybackState) :
    PlaybackState :=
  let start := max p.nextStartTime now
  { sources := p.sources ++ [srcId]
    nextStartTime := start + duration
    isModelSpeaking := true }

/-- `source.onended` (lines 174-177): drop the finished source from the
tracked set; when the set becomes empty, signal that the agent finished
speaking by clearing `isModelSpeaking`. -/
def handleSourceEnded (srcId : Nat) (p : PlaybackState) : PlaybackState :=
  let remaining := p.sources.erase srcId
  { p with
      sources := remaining
      isModelSpeaking := if remaining.isEmpty then false else p.isModelSpeaking }

/-- The interruption branch of `onmessage` (lines 199-204): stop every
tracked source, clear the tracked set, reset the schedule clock to 0 and
clear `isModelSpeaking`.  The result carries the new playback state, the
list of source ids that received a `stop()` call, and the number of
`setIsModelSpeaking(false)` signals emitted by the handler (the source
emits it once, unconditionally). -/
def handleInterrupted (p : PlaybackState) : PlaybackState × List Nat × Nat :=
  ({ sources := [], nextStartTime := 0, isModelSpeaking := false },
   p.sources, 1)

/-- One tick of the interval created by `startRestTimer`
(lines 237-244): decrement the captured `remaining`, publish it as
`timer`, and when it has reached 0 (or below) clear the interval and
clear `isResting`.  Returns the new `remaining`, the updated workout
state, and whether the interval keeps running. -/
def restTimerTick (remaining : Int) (s : WorkoutState) :
    Int × WorkoutState × Bool :=
  let r := remaining - 1
  if r ≤ 0 then (r, { s with timer := r, isResting := false }, false)
  else (r, { s with timer := r }, true)

/-- Run the rest-timer interval from a captured `remaining` value until it
clears itself, observing at most `fuel` ticks; returns the number of
ticks that fired and the final workout state. -/
def restTimerRun (fuel : Nat) (remaining : Int) (s : WorkoutState) :
    Nat × WorkoutState :=
  match fuel with
  | 0 => (0, s)
  | Nat.succ f =>
    match restTimerTick remaining s with
    | (r, s2, true) =>
      let p := restTimerRun f r s2
      (p.1 + 1, p.2)
    | (_, s2, false) => (1, s2)

/-- The interval bookkeeping around `startRestTimer`: `activeIntervals`
is the set of interval ids currently scheduled with the host,
`intervalRef` is `timerIntervalRef.current`, and `nextId` feeds fresh
interval ids. -/
structure TimerSys where
  nextId : Nat
  activeIntervals : List Nat
  intervalRef : Option Nat
  deriving Repr, DecidableEq

/-- `clearInterval(i)`: the host removes interval `i` from the scheduled
set (a no-op when `i` is not scheduled). -/
def clearIntervalSys (i : Nat) (t : TimerSys) : TimerSys :=
  { t with activeIntervals := t.activeIntervals.filter fun j => j ≠ i }

/-- The interval management of `startRestTimer` (lines 234-237): clear
the previously referenced interval when there is one, then create a fresh
interval and store it in `timerIntervalRef`. -/
def startRestTimerSys (t : TimerSys) : TimerSys :=
  let t1 := match t.intervalRef with
            | some i => clearIntervalSys i t
            | none => t
  { nextId := t1.nextId + 1
    activeIntervals := t1.activeIntervals ++ [t1.nextId]
    intervalRef := some t1.nextId }

/-- Well-formedness of the interval bookkeeping: at most one interval is
scheduled, and any scheduled interval is the one `timerIntervalRef`
refers to. -/
def TimerSysInv (t : TimerSys) : Prop :=
  t.activeIntervals.length ≤ 1 ∧
    ∀ i ∈ t.activeIntervals, t.intervalRef = some i

instance (t : TimerSys) : Decidable (TimerSysInv t) := by
  unfold TimerSysInv
  infer_instance

/-- The `WorkoutState` invariant of the spec's data model: when the state
is active the current exercise index is in range; resting implies a
non-negative timer; and a zero timer implies not resting. -/
def WorkoutInv (exercises : List Exercise) (s : WorkoutState) : Prop :=
  (s.isActive = true → s.currentExerciseIndex < exercises.length) ∧
    (s.isResting = true → 0 ≤ s.timer) ∧
    (s.timer = 0 → s.isResting = false)

instance (exercises : List Exercise) (s : WorkoutState) :
    Decidable (WorkoutInv exercises s) := by
  unfold WorkoutInv
  infer_instance

/-- The operations that mutate `WorkoutState` while a session runs: a
tool-call action routed through `handleTrainerAction`, a difficulty
change, and one rest-timer tick (with the tick's captured `remaining`
value). -/
inductive WorkoutOp where
  | trainer (action : String)
  | difficulty (value : Option String)
  | timerTick (remaining : Int)

/-- Apply one `WorkoutOp` to the exercise list and workout state;
`none` models the `TypeError` of an out-of-range `finish_set`. -/
def applyWorkoutOp (adjust : Exercise → Option String → Exercise) :
    WorkoutOp → List Exercise × WorkoutState →
    Option (List Exercise × WorkoutState)
  | WorkoutOp.trainer a, (exs, s) =>
    (handleTrainerAction exs a s).map fun p => (exs, p.1)
  | WorkoutOp.difficulty v, (exs, s) =>
    some (updateExercises adjust v s.currentExerciseIndex exs, s)
  | WorkoutOp.timerTick rem, (exs, s) =>
    some (exs, (restTimerTick rem s).2.1)

/-! ### Concrete sample data for witnesses and counterexamples -/

/-- A sample exercise with three sets and a 60 second rest. -/
def samplePushup : Exercise :=
  { id := "pushup", name := "Pushup", muscleGroup := "chest",
    description := "standard pushup", targetReps := 10, targetSets := 3,
    restSeconds := 60 }

/-- A sample exercise with two sets and a 45 second rest. -/
def sampleSquat : Exercise :=
  { id := "squat", name := "Squat", muscleGroup := "legs",
    description := "bodyweight squat", targetReps := 12, targetSets := 2,
    restSeconds := 45 }

/-- A degenerate exercise whose rest interval is zero seconds. -/
def sampleZeroRest : Exercise :=
  { id := "plank", name := "Plank", muscleGroup := "core",
    description := "hold", targetReps := 1, targetSets := 2,
    restSeconds := 0 }

/-- A concrete adjustment function standing in for the external
`adjustExerciseByDifficulty` collaborator in witnesses. -/
def sampleAdjust (e : Exercise) (v : Option String) : Exercise :=
  if v = some "Easy" then { e with targetReps := e.targetReps + 1 }
  else { e with targetSets := e.targetSets + 1 }

/-- A concrete interval bookkeeping state with one live interval,
referenced by `timerIntervalRef`. -/
def sampleTimerSys : TimerSys :=
  { nextId := 1, activeIntervals := [0], intervalRef := some 0 }

/-- A concrete orchestrator state at the start of a two-exercise
session. -/
def sampleOrch : OrchState :=
  { isWorkoutActive := true
    workoutState := { isActive := true, currentExerciseIndex := 0,
                      currentSet := 1, timer := 0, isResting := false }
    activeExercises := [samplePushup, sampleSquat]
    history := []
    sessionOpen := true
    closeCount := 0
    timerScheduled := false }

/-! ### Claims -/

/-- Claim C3: when `currentSet < targetSets` of the current exercise,
`FinishSet` increments `currentSet` by exactly 1, sets `isResting`, sets
the timer to the current exercise's `restSeconds` and leaves
`currentExerciseIndex` unchanged; when `currentSet = targetSets` and the
current exercise is not the last, `FinishSet` resets `currentSet` to 1,
clears `isResting`, zeros the timer and increments
`currentExerciseIndex` by exactly 1. -/
theorem finishSet_transition (exs : List Exercise) (s : WorkoutState)
    (ex : Exercise) (hex : exs.get? s.currentExerciseIndex = some ex) :
    (s.currentSet < ex.targetSets →
      handleTrainerAction exs "finish_set" s =
        some ({ s with currentSet := s.currentSet + 1,
                       timer := (ex.restSeconds : Int), isResting := true },
              [TrainerEffect.startRest ex.restSeconds])) ∧
    (s.currentSet = ex.targetSets →
      s.currentExerciseIndex < exs.length - 1 →
      handleTrainerAction exs "finish_set" s =
        some ({ s with
                  currentExerciseIndex := s.currentExerciseIndex + 1,
                  currentSet := 1, timer := 0, isResting := false }, [])) := by
  constructor
  · intro h
    unfold handleTrainerAction
    rw [if_pos rfl, hex]
    simp only
    rw [if_neg (by omega)]
  · intro h1 h2
    unfold handleTrainerAction
    rw [if_pos rfl, hex]
    simp only
    rw [if_pos (le_of_eq h1.symm), if_neg (by omega)]

/-- Claim C3 witness: the theorem applied to a concrete two-exercise
session at its first set. -/
theorem finishSet_transition_witness :
    handleTrainerAction [samplePushup, sampleSquat] "finish_set"
        { isActive := true, currentExerciseIndex := 0, currentSet := 1,
          timer := 0, isResting := false } =
      some ({ isActive := true, currentExerciseIndex := 0, currentSet := 2,
              timer := 60, isResting := true },
            [TrainerEffect.startRest 60]) := by
  have h := (finishSet_transition [samplePushup, sampleSquat]
    { isActive := true, currentExerciseIndex := 0, currentSet := 1,
      timer := 0, isResting := false } samplePushup rfl).1 (by decide)
  exact h

/-- Claim C10: the `finish_set` handler dereferences the current exercise
with no bounds guard: it is well-defined exactly when
`currentExerciseIndex` is in range of the active exercise list (on an
in-range index it is total, on an empty list or out-of-range index the
lookup yields no exercise and the handler faults). -/
theorem finishSet_defined_iff_index_in_range (exs : List Exercise)
    (s : WorkoutState) :
    (handleTrainerAction exs "finish_set" s).isSome ↔
      s.currentExerciseIndex < exs.length := by
  unfold handleTrainerAction
  rw [if_pos rfl]
  cases hg : exs.get? s.currentExerciseIndex with
  | none =>
    have := List.get?_eq_none.mp hg
    simp only [Option.isSome_none, Bool.false_eq_true, false_iff]
    omega
  | some ex =>
    have hlt : s.currentExerciseIndex < exs.length := by
      rw [List.get?_eq_some] at hg
      obtain ⟨h1, _⟩ := hg
      exact h1
    simp only
    constructor
    · intro _
      exact hlt
    · intro _
      split
      · split <;> simp
      · simp

/-- Claim C7: handling an interruption signal stops every currently
scheduled segment (however many are pending), empties the tracked set,
resets the schedule clock to the start-fresh value 0, emits the
agent-finished-speaking signal exactly once, and the reset is idempotent
and safe when nothing is scheduled (a second interruption returns the
same reset state, stops nothing and emits the signal once). -/
theorem interruption_resets_playback (p : PlaybackState) :
    (handleInterrupted p).1.sources = [] ∧
    (handleInterrupted p).2.1 = p.sources ∧
    (handleInterrupted p).1.nextStartTime = 0 ∧
    (handleInterrupted p).1.isModelSpeaking = false ∧
    (handleInterrupted p).2.2 = 1 ∧
    handleInterrupted (handleInterrupted p).1 =
      ((handleInterrupted p).1, [], 1) := by
  simp [handleInterrupted]

/-- Claim C8: a difficulty change while the current exercise index is in
range replaces only `exercises[i]` (with the pure adjustment of that
exercise); every other entry of the exercise list, the list length, and
every field of the workout state (and of the rest of the orchestrator
state) are unchanged. -/
theorem difficultyChange_frame (adjust : Exercise → Option String → Exercise)
    (value : Option String) (s : OrchState) (ex : Exercise)
    (hex : s.activeExercises.get? s.workoutState.currentExerciseIndex =
      some ex) :
    ((handleDifficultyChange adjust value s).1.activeExercises.get?
        s.workoutState.currentExerciseIndex = some (adjust ex value)) ∧
    (∀ j, j ≠ s.workoutState.currentExerciseIndex →
      (handleDifficultyChange adjust value s).1.activeExercises.get? j =
        s.activeExercises.get? j) ∧
    (handleDifficultyChange adjust value s).1.activeExercises.length =
      s.activeExercises.length ∧
    (handleDifficultyChange adjust value s).1.workoutState =
      s.workoutState ∧
    (handleDifficultyChange adjust value s).1.isWorkoutActive =
      s.isWorkoutActive ∧
    (handleDifficultyChange adjust value s).1.history = s.history ∧
    (handleDifficultyChange adjust value s).1.sessionOpen =
      s.sessionOpen ∧
    (handleDifficultyChange adjust value s).1.closeCount = s.closeCount ∧
    (handleDifficultyChange adjust value s).1.timerScheduled =
      s.timerScheduled := by
  have hlt : s.workoutState.currentExerciseIndex < s.activeExercises.length := by
    rw [List.get?_eq_some] at hex
    obtain ⟨h1, _⟩ := hex
    exact h1
  simp only [handleDifficultyChange, updateExercises, hex]
  refine ⟨?_, ?_, ?_, trivial, trivial, trivial, trivial, trivial, trivial⟩
  · simp [List.get?_eq_getElem?, List.getElem?_set_eq_of_lt, hlt]
  · intro j hj
    rw [List.get?_eq_getElem?, List.get?_eq_getElem?,
      List.getElem?_set_ne (Ne.symm hj)]
  · simp

/-- Claim C8 witness: the theorem applied to the concrete sample session
with a concrete adjustment function. -/
theorem difficultyChange_frame_witness :
    ((handleDifficultyChange sampleAdjust (some "Easy")
        sampleOrch).1.activeExercises.get? 0 =
      some (sampleAdjust samplePushup (some "Easy"))) ∧
    (handleDifficultyChange sampleAdjust (some "Easy")
        sampleOrch).1.activeExercises.get? 1 =
      sampleOrch.activeExercises.get? 1 ∧
    (handleDifficultyChange sampleAdjust (some "Easy")
        sampleOrch).1.workoutState = sampleOrch.workoutState := by
  have h := difficultyChange_frame sampleAdjust (some "Easy") sampleOrch
    samplePushup rfl
  exact ⟨h.1, h.2.1 1 (by decide), h.2.2.2.1⟩

/-- The workout state after the final `finish_set` of the sample
two-exercise session. -/
def sampleCompleted : WorkoutState :=
  { isActive := false, currentExerciseIndex := 1, currentSet := 2,
    timer := 0, isResting := false }

/-- Claim C1 counterexample: applying `finish_set` again after the
session has completed (active already false, last set of the last
exercise) leaves the state unchanged but schedules the `stopWorkout`
teardown again — the effect list is not empty, so the second `FinishSet`
does trigger completion again, contrary to the claim. -/
theorem finishSet_second_completion_cex :
    handleTrainerAction [samplePushup, sampleSquat] "finish_set"
        sampleCompleted =
      some (sampleCompleted, [TrainerEffect.scheduleStop]) ∧
    ([TrainerEffect.scheduleStop] : List TrainerEffect) ≠ [] := by
  decide

/-- Claim C1 (amended): for the last set of the last exercise,
`FinishSet` sets `active := false` and schedules the `stopWorkout`
teardown once per invocation; a further `FinishSet` after completion
leaves the state unchanged (a state no-op) but schedules the teardown
again rather than being suppressed. -/
theorem finishSet_completion_retrigger (exs : List Exercise)
    (s : WorkoutState) (ex : Exercise)
    (hex : exs.get? s.currentExerciseIndex = some ex)
    (hset : ex.targetSets ≤ s.currentSet)
    (hlast : exs.length - 1 ≤ s.currentExerciseIndex) :
    handleTrainerAction exs "finish_set" s =
      some ({ s with isActive := false }, [TrainerEffect.scheduleStop]) ∧
    handleTrainerAction exs "finish_set" { s with isActive := false } =
      some ({ s with isActive := false }, [TrainerEffect.scheduleStop]) := by
  constructor
  · unfold handleTrainerAction
    rw [if_pos rfl, hex]
    simp only
    rw [if_pos hset, if_pos hlast]
  · unfold handleTrainerAction
    rw [if_pos rfl]
    have hex2 : exs.get? (WorkoutState.currentExerciseIndex
        { s with isActive := false }) = some ex := hex
    rw [hex2]
    simp only
    rw [if_pos hset, if_pos hlast]

/-- Claim C1 witness: the amended theorem applied to the sample session
at the last set of its last exercise. -/
theorem finishSet_completion_retrigger_witness :
    handleTrainerAction [samplePushup, sampleSquat] "finish_set"
        { isActive := true, currentExerciseIndex := 1, currentSet := 2,
          timer := 0, isResting := false } =
      some (sampleCompleted, [TrainerEffect.scheduleStop]) := by
  have h := (finishSet_completion_retrigger [samplePushup, sampleSquat]
    { isActive := true, currentExerciseIndex := 1, currentSet := 2,
      timer := 0, isResting := false } sampleSquat rfl (by decide)
    (by decide)).1
  exact h

/-- Unconditional description of one `stopWorkout` invocation: the
remote handle ends up released, `close()` is issued only when the handle
was still set, and exactly one history record is prepended. -/
theorem stopWorkout_step (s : OrchState) :
    (stopWorkout s).sessionOpen = false ∧
    (stopWorkout s).closeCount =
      (if s.sessionOpen then s.closeCount + 1 else s.closeCount) ∧
    (stopWorkout s).history =
      mkSessionRecord s.activeExercises :: s.history ∧
    (stopWorkout s).activeExercises = s.activeExercises := by
  by_cases h : s.sessionOpen <;> simp [stopWorkout, h]

/-- Claim C4 counterexample: two stop triggers on the same workout
attempt (e.g. the user's explicit stop and the completion-scheduled
`setTimeout(stopWorkout, 2000)`) close the remote handle once but append
two history records, not one. -/
theorem stopWorkout_double_cex :
    (stopWorkout (stopWorkout sampleOrch)).closeCount = 1 ∧
    (stopWorkout (stopWorkout sampleOrch)).history.length = 2 ∧
    (2 : Nat) ≠ 1 := by
  decide

/-- Claim C4 (amended): across any positive number of stop triggers on
one workout attempt the remote session handle is closed at most once
(exactly once when it was open), but every trigger appends a history
record: `n` triggers grow the history by `n` records, not by one. -/
theorem stopWorkout_iterated (s : OrchState) (n : Nat)
    (hopen : s.sessionOpen = true) (hc : s.closeCount = 0) (hn : 1 ≤ n) :
    (stopWorkout^[n] s).closeCount = 1 ∧
    (stopWorkout^[n] s).history.length = s.history.length + n := by
  have aux : ∀ (m : Nat) (u : OrchState), u.sessionOpen = false →
      (stopWorkout^[m] u).closeCount = u.closeCount ∧
      (stopWorkout^[m] u).sessionOpen = false ∧
      (stopWorkout^[m] u).history.length = u.history.length + m := by
    intro m
    induction m with
    | zero => intro u hu; exact ⟨rfl, hu, rfl⟩
    | succ k ih =>
      intro u hu
      rw [Function.iterate_succ_apply]
      obtain ⟨h1, h2, h3, _⟩ := stopWorkout_step u
      obtain ⟨g1, g2, g3⟩ := ih (stopWorkout u) h1
      refine ⟨?_, g2, ?_⟩
      · rw [g1, h2, if_neg (by simp [hu])]
      · rw [g3, h3]
        simp
        omega
  obtain ⟨m, rfl⟩ : ∃ m, n = m + 1 := ⟨n - 1, by omega⟩
  rw [Function.iterate_succ_apply]
  obtain ⟨h1, h2, h3, _⟩ := stopWorkout_step s
  obtain ⟨g1, g2, g3⟩ := aux m (stopWorkout s) h1
  refine ⟨?_, ?_⟩
  · rw [g1, h2, if_pos (by simp [hopen]), hc]
  · rw [g3, h3]
    simp
    omega

/-- Claim C4 witness: the amended theorem applied to the concrete sample
orchestrator state with two stop triggers. -/
theorem stopWorkout_iterated_witness :
    (stopWorkout^[2] sampleOrch).closeCount = 1 ∧
    (stopWorkout^[2] sampleOrch).history.length =
      sampleOrch.history.length + 2 :=
  stopWorkout_iterated sampleOrch 2 rfl rfl (by decide)

/-- Claim C2 counterexample: a tool call whose function name is not
`updateWorkoutState` falls through the dispatch with no response at all —
zero responses carry its id, not exactly one. -/
theorem toolResponse_unknown_name_cex :
    ((processToolCalls sampleAdjust sampleOrch
        [{ id := "call-1", name := "someOtherTool", action := "finish_set",
           value := none }]).2.filter
      (fun r => r.id = "call-1")).length = 0 ∧
    (0 : Nat) ≠ 1 := by
  decide

/-- Claim C2 (amended): the dispatch loop answers exactly the tool calls
named `updateWorkoutState`: each such call (any action string, including
unrecognized ones) produces exactly one response carrying that call's id,
in order; a call with any other function name produces no response. -/
theorem toolResponses_per_updateWorkoutState
    (adjust : Exercise → Option String → Exercise) (s : OrchState)
    (fcs : List FunctionCall) :
    (processToolCalls adjust s fcs).2 =
      (fcs.filter fun fc => fc.name = "updateWorkoutState").map
        fun fc => { id := fc.id, name := fc.name, result := "ok" } := by
  induction fcs generalizing s with
  | nil => rfl
  | cons fc rest ih =>
    by_cases h : fc.name = "updateWorkoutState" <;>
      simp [processToolCalls, processFunctionCall, h, ih]

/-- Claim C9 counterexample: from the sample start state (first set of
three), the declared action `next_exercise` leaves the workout state
machine completely unchanged, while the `FinishSet` transition from the
same state produces a different state — so a non-`set_difficulty` action
exists on which no `FinishSet` (or equivalent) is applied. -/
theorem nextExercise_unapplied_cex :
    (processToolCalls sampleAdjust sampleOrch
        [{ id := "c1", name := "updateWorkoutState",
           action := "next_exercise", value := none }]).1.workoutState =
      sampleOrch.workoutState ∧
    (handleTrainerAction sampleOrch.activeExercises "finish_set"
        sampleOrch.workoutState).map Prod.fst ≠
      some sampleOrch.workoutState := by
  decide

/-- Claim C9 (amended): every `updateWorkoutState` call whose action is
not `set_difficulty` is routed to `handleTrainerAction`, but only the
action string `finish_set` applies the `FinishSet` transition; any other
action string — the declared `next_exercise` included — leaves the
workout state machine unchanged. -/
theorem trainerAction_routing (adjust : Exercise → Option String → Exercise)
    (s : OrchState) (fc : FunctionCall)
    (hname : fc.name = "updateWorkoutState")
    (hact : fc.action ≠ "set_difficulty") :
    (fc.action = "finish_set" →
      (processFunctionCall adjust s fc).1.workoutState =
        (match handleTrainerAction s.activeExercises "finish_set"
            s.workoutState with
         | some p => p.1
         | none => s.workoutState)) ∧
    (fc.action ≠ "finish_set" →
      handleTrainerAction s.activeExercises fc.action s.workoutState =
        some (s.workoutState, []) ∧
      (processFunctionCall adjust s fc).1.workoutState =
        s.workoutState) := by
  constructor
  · intro hfin
    unfold processFunctionCall
    rw [if_pos hname, if_neg hact, hfin]
    cases handleTrainerAction s.activeExercises "finish_set"
        s.workoutState with
    | none => rfl
    | some p => rfl
  · intro hfin
    have hnoop : handleTrainerAction s.activeExercises fc.action
        s.workoutState = some (s.workoutState, []) := by
      unfold handleTrainerAction
      rw [if_neg hfin]
    refine ⟨hnoop, ?_⟩
    unfold processFunctionCall
    rw [if_pos hname, if_neg hact, hnoop]

/-- Claim C9 witness: the amended theorem applied to a concrete
`next_exercise` call on the sample state. -/
theorem trainerAction_routing_witness :
    handleTrainerAction sampleOrch.activeExercises "next_exercise"
        sampleOrch.workoutState = some (sampleOrch.workoutState, []) ∧
    (processFunctionCall sampleAdjust sampleOrch
        { id := "c2", name := "updateWorkoutState",
          action := "next_exercise", value := none }).1.workoutState =
      sampleOrch.workoutState :=
  (trainerAction_routing sampleAdjust sampleOrch
      { id := "c2", name := "updateWorkoutState",
        action := "next_exercise", value := none }
      rfl (by decide)).2 (by decide)

/-- A difficulty change never changes the length of the exercise list. -/
theorem updateExercises_length (adjust : Exercise → Option String → Exercise)
    (value : Option String) (i : Nat) (l : List Exercise) :
    (updateExercises adjust value i l).length = l.length := by
  unfold updateExercises
  cases l.get? i with
  | none => rfl
  | some e => simp

/-- Claim C5 counterexample: with an exercise whose `restSeconds` is 0,
a mid-exercise `FinishSet` transitions from an invariant-satisfying state
to one with `timer = 0` and `isResting = true`, breaking
"any transition that makes `timer == 0` clears `isResting`". -/
theorem workoutInv_break_cex :
    WorkoutInv [sampleZeroRest]
      { isActive := true, currentExerciseIndex := 0, currentSet := 1,
        timer := 5, isResting := true } ∧
    applyWorkoutOp sampleAdjust (WorkoutOp.trainer "finish_set")
        ([sampleZeroRest],
         { isActive := true, currentExerciseIndex := 0, currentSet := 1,
           timer := 5, isResting := true }) =
      some ([sampleZeroRest],
            { isActive := true, currentExerciseIndex := 0, currentSet := 2,
              timer := 0, isResting := true }) ∧
    ¬ WorkoutInv [sampleZeroRest]
      { isActive := true, currentExerciseIndex := 0, currentSet := 2,
        timer := 0, isResting := true } := by
  decide

/-- Claim C5 (amended): provided every exercise's rest interval is at
least one second, the `WorkoutState` invariant — active implies the
exercise index is in range, resting implies a non-negative timer, and a
zero timer implies not resting — is preserved by every operation:
`handleTrainerAction` on any action, a difficulty change, and every rest
timer tick. -/
theorem workoutInv_preserved (adjust : Exercise → Option String → Exercise)
    (op : WorkoutOp) (exs exs' : List Exercise) (s s' : WorkoutState)
    (hrest : ∀ ex ∈ exs, 1 ≤ ex.restSeconds)
    (hinv : WorkoutInv exs s)
    (happ : applyWorkoutOp adjust op (exs, s) = some (exs', s')) :
    WorkoutInv exs' s' := by
  obtain ⟨h1, h2, h3⟩ := hinv
  cases op with
  | trainer a =>
    cases hp : handleTrainerAction exs a s with
    | none => simp [applyWorkoutOp, hp] at happ
    | some p =>
      simp only [applyWorkoutOp, hp, Option.map_some'] at happ
      have heq := Option.some.inj happ
      rw [Prod.mk.injEq] at heq
      obtain ⟨rfl, rfl⟩ := heq
      by_cases hf : a = "finish_set"
      · subst hf
        unfold handleTrainerAction at hp
        rw [if_pos rfl] at hp
        cases hg : exs.get? s.currentExerciseIndex with
        | none => rw [hg] at hp; exact absurd hp (by simp)
        | some ex =>
          rw [hg] at hp
          simp only at hp
          have hmem : ex ∈ exs := List.get?_mem hg
          have hlt : s.currentExerciseIndex < exs.length := by
            rw [List.get?_eq_some] at hg
            exact hg.1
          by_cases hls : ex.targetSets ≤ s.currentSet
          · rw [if_pos hls] at hp
            by_cases hle : exs.length - 1 ≤ s.currentExerciseIndex
            · rw [if_pos hle] at hp
              obtain rfl := Option.some.inj hp
              exact ⟨fun hh => by simp at hh, h2, h3⟩
            · rw [if_neg hle] at hp
              obtain rfl := Option.some.inj hp
              refine ⟨fun _ => by simp; omega, fun hh => by simp at hh,
                fun _ => rfl⟩
          · rw [if_neg hls] at hp
            obtain rfl := Option.some.inj hp
            refine ⟨h1, fun _ => Int.natCast_nonneg _, fun hh => ?_⟩
            exfalso
            have := hrest ex hmem
            simp only at hh
            omega
      · unfold handleTrainerAction at hp
        rw [if_neg hf] at hp
        obtain rfl := Option.some.inj hp
        exact ⟨h1, h2, h3⟩
  | difficulty v =>
    simp only [applyWorkoutOp] at happ
    have heq := Option.some.inj happ
    rw [Prod.mk.injEq] at heq
    obtain ⟨rfl, rfl⟩ := heq
    refine ⟨fun hh => ?_, h2, h3⟩
    rw [updateExercises_length]
    exact h1 hh
  | timerTick rem =>
    simp only [applyWorkoutOp, restTimerTick] at happ
    by_cases hr : rem - 1 ≤ 0
    · rw [if_pos hr] at happ
      have heq := Option.some.inj happ
      rw [Prod.mk.injEq] at heq
      obtain ⟨rfl, rfl⟩ := heq
      exact ⟨h1, fun hh => by simp at hh, fun _ => rfl⟩
    · rw [if_neg hr] at happ
      have heq := Option.some.inj happ
      rw [Prod.mk.injEq] at heq
      obtain ⟨rfl, rfl⟩ := heq
      refine ⟨h1, fun _ => by simp; omega, fun hh => ?_⟩
      exfalso
      simp only at hh
      omega

/-- Claim C5 witness: the amended theorem applied to a concrete
mid-exercise `finish_set` on the sample exercise. -/
theorem workoutInv_preserved_witness :
    WorkoutInv [samplePushup]
      { isActive := true, currentExerciseIndex := 0, currentSet := 2,
        timer := 60, isResting := true } :=
  workoutInv_preserved sampleAdjust (WorkoutOp.trainer "finish_set")
    [samplePushup] [samplePushup]
    { isActive := true, currentExerciseIndex := 0, currentSet := 1,
      timer := 0, isResting := false }
    { isActive := true, currentExerciseIndex := 0, currentSet := 2,
      timer := 60, isResting := true }
    (by decide) (by decide) (by decide)

/-- Unfolding equation for one step of the bounded rest-timer run. -/
theorem restTimerRun_succ (f : Nat) (rem : Int) (s : WorkoutState) :
    restTimerRun (f + 1) rem s =
      if rem - 1 ≤ 0 then
        (1, { s with timer := rem - 1, isResting := false })
      else
        ((restTimerRun f (rem - 1) { s with timer := rem - 1 }).1 + 1,
         (restTimerRun f (rem - 1) { s with timer := rem - 1 }).2) := by
  by_cases h : rem - 1 ≤ 0 <;> simp [restTimerRun, restTimerTick, h]

/-- A rest timer started with a positive number of seconds `N` fires
exactly `N` ticks and then stops with `timer = 0` and
`isResting = false`, for any starting workout state and any tick budget
of at least `N`. -/
theorem restTimerRun_exact (N : Nat) (hN : 1 ≤ N) :
    ∀ (fuel : Nat) (s : WorkoutState), N ≤ fuel →
      restTimerRun fuel (N : Int) s =
        (N, { s with timer := 0, isResting := false }) := by
  induction N with
  | zero => omega
  | succ m ih =>
    intro fuel s hfuel
    obtain ⟨f, rfl⟩ : ∃ f, fuel = f + 1 := ⟨fuel - 1, by omega⟩
    rw [restTimerRun_succ]
    by_cases hm : m = 0
    · subst hm
      rw [if_pos (by simp)]
      norm_num
    · have hcast : ((m + 1 : Nat) : Int) - 1 = (m : Int) := by
        push_cast
        ring
      rw [if_neg (by omega), hcast,
        ih (by omega) f { s with timer := (m : Int) } (by omega)]

/-- Starting a new rest timer cancels the previously referenced interval
before scheduling a fresh one: from any well-formed interval state,
exactly one interval is scheduled afterwards, and the bookkeeping stays
well-formed. -/
theorem startRestTimerSys_single (t : TimerSys) (ht : TimerSysInv t) :
    (startRestTimerSys t).activeIntervals.length = 1 ∧
      TimerSysInv (startRestTimerSys t) := by
  obtain ⟨hlen, href⟩ := ht
  have hall : ∀ i0, t.intervalRef = some i0 → ∀ j ∈ t.activeIntervals,
      j = i0 := by
    intro i0 h0 j hj
    have := href j hj
    rw [h0] at this
    exact (Option.some.inj this).symm
  cases h0 : t.intervalRef with
  | none =>
    have hempty : t.activeIntervals = [] := by
      cases hact : t.activeIntervals with
      | nil => rfl
      | cons j rest =>
        have := href j (by rw [hact]; exact List.mem_cons_self j rest)
        rw [h0] at this
        exact absurd this (by simp)
    constructor
    · simp [startRestTimerSys, h0, hempty]
    · refine ⟨by simp [startRestTimerSys, h0, hempty], ?_⟩
      intro i hi
      simp only [startRestTimerSys, h0, hempty] at hi ⊢
      simp only [List.nil_append, List.mem_singleton] at hi
      simp [hi]
  | some i0 =>
    have hnil : t.activeIntervals.filter (fun j => j ≠ i0) = [] := by
      rw [List.filter_eq_nil_iff]
      intro j hj
      simp [hall i0 h0 j hj]
    constructor
    · simp only [startRestTimerSys, clearIntervalSys, h0, hnil]
      simp
    · refine ⟨?_, ?_⟩
      · simp only [startRestTimerSys, clearIntervalSys, h0, hnil]
        simp
      · intro i hi
        simp only [startRestTimerSys, clearIntervalSys, h0, hnil] at hi ⊢
        simp only [List.nil_append, List.mem_singleton] at hi
        simp [hi]

/-- Claim C6 counterexample: a rest timer started with `seconds = 0`
(possible only for a zero-rest exercise) does not reach `timer = 0` after
exactly 0 ticks: it fires one tick and stops at `timer = -1`. -/
theorem restTimer_zero_cex :
    (restTimerRun 3 (0 : Int)
        { isActive := true, currentExerciseIndex := 0, currentSet := 2,
          timer := 0, isResting := true }).1 = 1 ∧
    (restTimerRun 3 (0 : Int)
        { isActive := true, currentExerciseIndex := 0, currentSet := 2,
          timer := 0, isResting := true }).2.timer = -1 ∧
    ¬ ((restTimerRun 3 (0 : Int)
          { isActive := true, currentExerciseIndex := 0, currentSet := 2,
            timer := 0, isResting := true }).1 = 0 ∧
       (restTimerRun 3 (0 : Int)
          { isActive := true, currentExerciseIndex := 0, currentSet := 2,
            timer := 0, isResting := true }).2.timer = 0) := by
  decide

/-- Claim C6 (amended): a rest timer started with `seconds = N` for
`N ≥ 1` reaches `timer = 0` and `isResting = false` after exactly `N`
ticks, and starting a new rest timer cancels the previously referenced
interval, so exactly one interval is ever live and the shared timer is
never decremented twice in the same tick. -/
theorem restTimer_countdown_cancel (N fuel : Nat) (s : WorkoutState)
    (t : TimerSys) (hN : 1 ≤ N) (hfuel : N ≤ fuel) (ht : TimerSysInv t) :
    restTimerRun fuel (N : Int) s =
      (N, { s with timer := 0, isResting := false }) ∧
    (startRestTimerSys t).activeIntervals.length = 1 ∧
    TimerSysInv (startRestTimerSys t) := by
  obtain ⟨hone, hinv⟩ := startRestTimerSys_single t ht
  exact ⟨restTimerRun_exact N hN fuel s hfuel, hone, hinv⟩

/-- Claim C6 witness: the amended theorem applied to a two-second rest
on a concrete state, with a previously scheduled interval that gets
cancelled. -/
theorem restTimer_countdown_cancel_witness :
    restTimerRun 3 ((2 : Nat) : Int)
        { isActive := true, currentExerciseIndex := 0, currentSet := 2,
          timer := 2, isResting := true } =
      (2, { isActive := true, currentExerciseIndex := 0, currentSet := 2,
            timer := 0, isResting := false }) ∧
    (startRestTimerSys sampleTimerSys).activeIntervals.length = 1 ∧
    TimerSysInv (startRestTimerSys sampleTimerSys) :=
  restTimer_countdown_cancel 2 3
    { isActive := true, currentExerciseIndex := 0, currentSet := 2,
      timer := 2, isResting := true }
    sampleTimerSys (by decide) (by decide) (by decide)
